import Mathlib

/-!
Verification of the streaming response correlation layer of the CoDHeChat
frontend (`my-chatbot/src/services/chatService.ts`).

The source file contains two historical versions of `WebSocketManager`
concatenated.  The current version (the one with the explicit
`chunk`/`complete`/`error` frame protocol keyed by request id, lines
228-433) is embedded in namespace `ChatService`; the legacy version's
exponential-backoff reconnection logic (lines 113-129) is embedded in
namespace `Legacy`.

Modelling conventions:
* The JS `Map<string, MessageResolver>` becomes an association list with
  unique keys (a JS `Map` never holds duplicate keys); `Map.delete`
  is therefore modelled by filtering the key out.
* Promise settlement and `onUpdate` callbacks are modelled as a list of
  emitted `Event`s returned alongside the new state.
* A JSON value that is absent / `undefined` / not of the expected type is
  modelled as `none`.
* Transport interactions are instrumented: every `new WebSocket(...)`
  constructor call allocates a fresh id recorded in the `live` list, and
  every `.close()` call removes that id, so `live` is exactly the set of
  transport connections opened and never closed.
-/

namespace ChatService

/-- `WebSocket.readyState` constants. -/
inductive ReadyState
  | CONNECTING
  | OPEN
  | CLOSING
  | CLOSED
deriving DecidableEq, Repr

/-- One inbound server frame as read by `handleServerMessage` after
`JSON.parse`.  `requestId` merges `data.requestId || data.request_id`
(`none` when both are absent or falsy objects; the empty string is kept,
since JS then hits the separate `if (!requestId) return` check, which the
embedding reproduces).  `content` is `some s` exactly when `data.content`
is the string `s`; `conversationId` and `detail` are `none` when absent. -/
structure InFrame where
  requestId : Option String
  type : String
  content : Option String
  conversationId : Option Int
  detail : Option String
deriving DecidableEq, Repr

/-- The per-exchange record stored in `messageResolvers`
(interface `MessageResolver`).  The `resolve`/`reject` closures are
modelled by the emitted `Event`s; `hasOnUpdate` records whether the
optional `onUpdate` callback was supplied. -/
structure Resolver where
  hasOnUpdate : Bool
  latest : Option String
  conversationId : Option Int
deriving DecidableEq, Repr

/-- Observable effects of the manager: an `onUpdate` callback invocation,
a promise resolution (`resolver.resolve`), or a promise rejection
(`resolver.reject`) carrying the error message. -/
inductive Event
  | update (token : String) (content : String) (conversationId : Option Int)
  | resolveOk (token : String) (reply : String) (conversationId : Option Int)
  | rejectErr (token : String) (msg : String)
deriving DecidableEq, Repr

/-- The correlation token an event is addressed to. -/
def Event.token : Event → String
  | .update t _ _ => t
  | .resolveOk t _ _ => t
  | .rejectErr t _ => t

/-- The resolver map.  Keys are unique (JS `Map`). -/
abbrev ResolverMap := List (String × Resolver)

/-- `Map.get`. -/
def mapGet (k : String) : ResolverMap → Option Resolver
  | [] => none
  | p :: rest => if p.1 = k then some p.2 else mapGet k rest

/-- `Map.set`: replace the entry if the key is present, else append. -/
def mapSet (k : String) (v : Resolver) : ResolverMap → ResolverMap
  | [] => [(k, v)]
  | p :: rest => if p.1 = k then (k, v) :: rest else p :: mapSet k v rest

/-- `Map.delete`: remove the entry with this key (keys are unique, so
removing every occurrence is exact). -/
def mapDel (k : String) : ResolverMap → ResolverMap
  | [] => []
  | p :: rest => if p.1 = k then mapDel k rest else p :: mapDel k rest

/-- JS nullish coalescing `a ?? b` on optional values. -/
def jsOr (a b : Option Int) : Option Int :=
  match a with
  | some x => some x
  | none => b

/-- JS `a || b` for an optional string (`undefined` and `""` are falsy). -/
def jsOrStr (a : Option String) (b : String) : String :=
  match a with
  | some s => if s = "" then b else s
  | none => b

/-- `WebSocketManager.handleServerMessage` (chatService.ts lines 343-387).
The argument is `none` when `JSON.parse` threw: the `catch` block logs and
leaves every resolver untouched.  Otherwise the frame is dispatched on its
`type` discriminator after the `requestId` lookups and guards. -/
def handleServerMessage (rs : ResolverMap) (msg : Option InFrame) :
    ResolverMap × List Event :=
  match msg with
  | none => (rs, [])
  | some data =>
    match data.requestId with
    | none => (rs, [])
    | some requestId =>
      if requestId = "" then (rs, [])
      else
        match mapGet requestId rs with
        | none => (rs, [])
        | some resolver =>
          if data.type = "chunk" then
            (mapSet requestId
              { resolver with latest := data.content,
                              conversationId := data.conversationId } rs,
             if resolver.hasOnUpdate && data.content.isSome then
               [Event.update requestId (data.content.getD "") data.conversationId]
             else [])
          else if data.type = "complete" then
            (mapDel requestId rs,
             [Event.resolveOk requestId (resolver.latest.getD "")
                (jsOr resolver.conversationId data.conversationId)])
          else if data.type = "error" then
            (mapDel requestId rs,
             [Event.rejectErr requestId (jsOrStr data.detail "Chat streaming failed")])
          else (rs, [])

/-- A well-formed `chunk` frame for token `t`. -/
def chunkFrame (t c : String) (cid : Option Int) : InFrame :=
  { requestId := some t, type := "chunk", content := some c,
    conversationId := cid, detail := none }

/-- A well-formed `complete` frame for token `t`. -/
def completeFrame (t : String) (cid : Option Int) : InFrame :=
  { requestId := some t, type := "complete", content := none,
    conversationId := cid, detail := none }

/-- Deliver a sequence of inbound messages through `handleServerMessage`,
collecting all emitted events in order. -/
def runFrames (rs : ResolverMap) (msgs : List (Option InFrame)) :
    ResolverMap × List Event :=
  match msgs with
  | [] => (rs, [])
  | m :: rest =>
    let step := handleServerMessage rs m
    let next := runFrames step.1 rest
    (next.1, step.2 ++ next.2)

/-! ### Connection manager state -/

/-- One `WebSocket` object.  `id` is an allocation counter used by the
instrumentation to track object identity; `token` is the credential put in
the handshake URL (`new WebSocket(url + "/ws?token=" + token)`). -/
structure Conn where
  id : Nat
  readyState : ReadyState
  token : String
deriving DecidableEq, Repr

/-- The mutable fields of the current `WebSocketManager` (chatService.ts
lines 239-243), plus instrumentation: `live` lists the ids of every
`WebSocket` constructed and not yet `close()`d, `nextId` is the allocation
counter.  `connectPromise` records whether `this.connectPromise` is
non-null. -/
structure WSManager where
  ws : Option Conn
  resolvers : ResolverMap
  connectPromise : Bool
  activeToken : Option String
  live : List Nat
  nextId : Nat
deriving DecidableEq, Repr

/-- `this.ws && this.ws.readyState === WebSocket.OPEN`. -/
def readyOpen : Option Conn → Bool
  | some c => c.readyState == ReadyState.OPEN
  | none => false

/-- What a `connect(token)` call did. -/
inductive ConnectResult
  | immediate
  | sharedInFlight
  | handshake
deriving DecidableEq, Repr

/-- `WebSocketManager.connect` (chatService.ts lines 251-289).
Already open with the same token: return at once.  A connect promise in
flight for the same token: return that promise.  Otherwise record the new
token, create a fresh `connectPromise` and construct a new `WebSocket`
(the body never calls `close()` on any existing socket, so `live` only
grows here). -/
def connect (m : WSManager) (token : String) : WSManager × ConnectResult :=
  if readyOpen m.ws && (m.activeToken == some token) then
    (m, .immediate)
  else if m.connectPromise && (m.activeToken == some token) then
    (m, .sharedInFlight)
  else
    ({ m with activeToken := some token,
              connectPromise := true,
              ws := some ⟨m.nextId, ReadyState.CONNECTING, token⟩,
              live := m.live ++ [m.nextId],
              nextId := m.nextId + 1 }, .handshake)

/-- The transport fires `open`: the socket's `readyState` becomes `OPEN`
and the `onopen` handler clears `this.connectPromise` and resolves it. -/
def onOpen (m : WSManager) : WSManager :=
  { m with ws := m.ws.map (fun c => { c with readyState := ReadyState.OPEN }),
           connectPromise := false }

/-- `WebSocketManager.cleanupConnection` (chatService.ts lines 389-399):
close the socket if any, null out `ws` and `connectPromise`, reject every
active resolver with `Error('WebSocket disconnected')`, clear the map. -/
def cleanupConnection (m : WSManager) : WSManager × List Event :=
  ({ m with ws := none,
            connectPromise := false,
            resolvers := [],
            live := match m.ws with
                    | some c => m.live.filter (fun i => i ≠ c.id)
                    | none => m.live },
   m.resolvers.map (fun p => Event.rejectErr p.1 "WebSocket disconnected"))

/-- `WebSocketManager.disconnect` (chatService.ts lines 291-293). -/
def disconnect (m : WSManager) : WSManager × List Event :=
  cleanupConnection m

/-- The registration/send portion of `WebSocketManager.sendMessage`
(chatService.ts lines 306-332): store a fresh `MessageResolver`
(`latest` and `conversationId` start undefined), then `ws.send(...)`.
`sendOk = false` models `send` throwing, whose `catch` deletes the entry
just stored and rejects the returned promise with the thrown error
(message `errMsg`). -/
def sendMessage (rs : ResolverMap) (requestId : String) (hasOnUpdate : Bool)
    (sendOk : Bool) (errMsg : String) : ResolverMap × List Event :=
  let rs1 := mapSet requestId ⟨hasOnUpdate, none, none⟩ rs
  if sendOk then (rs1, [])
  else (mapDel requestId rs1, [Event.rejectErr requestId errMsg])

/-- The sequence of `chunk` frames for token `t` carrying the listed
(content, conversation id) pairs. -/
def chunksOf (t : String) (ps : List (String × Option Int)) :
    List (Option InFrame) :=
  ps.map (fun p => some (chunkFrame t p.1 p.2))

/-- A `complete` or `error` frame addressed to token `t`: the only frame
shapes whose handling settles `t`'s promise. -/
def terminalFor (t : String) (m : Option InFrame) : Bool :=
  match m with
  | none => false
  | some f =>
    decide (f.requestId = some t) &&
      (decide (f.type = "complete") || decide (f.type = "error"))

/-- Whether an event settles (resolves or rejects) token `t`'s promise. -/
def settlesFor (t : String) : Event → Bool
  | .update _ _ _ => false
  | .resolveOk u _ _ => decide (u = t)
  | .rejectErr u _ => decide (u = t)

/-- An open manager used to witness C5. -/
def mOpenW : WSManager :=
  { ws := some ⟨0, ReadyState.OPEN, "tok"⟩, resolvers := [],
    connectPromise := false, activeToken := some "tok",
    live := [0], nextId := 1 }

/-- A manager with a connect attempt in flight, used to witness C5. -/
def mInflightW : WSManager :=
  { ws := some ⟨1, ReadyState.CONNECTING, "tok"⟩, resolvers := [],
    connectPromise := true, activeToken := some "tok",
    live := [1], nextId := 2 }

/-- A manager whose socket is Open with credential `"a"`: socket id 0 is
the single live transport connection. -/
def mOpenA : WSManager :=
  { ws := some ⟨0, ReadyState.OPEN, "a"⟩, resolvers := [],
    connectPromise := false, activeToken := some "a",
    live := [0], nextId := 1 }

end ChatService

namespace Legacy

/-- `this.maxReconnectAttempts = 5` (chatService.ts line 11). -/
def maxReconnectAttempts : Nat := 5

/-- `this.reconnectDelay = 1000` (chatService.ts line 12), the exponential
backoff base in milliseconds. -/
def reconnectDelay : Nat := 1000

/-- `WebSocketManager.attemptReconnect` of the legacy manager
(chatService.ts lines 116-129), as a function of the current
`reconnectAttempts` counter.  Below the cap it increments the counter and
schedules `connect` after `reconnectDelay * 2 ^ (reconnectAttempts - 1)`
milliseconds (with the incremented counter), returning
`some (newCounter, delay)`; at or above the cap it schedules nothing. -/
def attemptReconnect (reconnectAttempts : Nat) : Option (Nat × Nat) :=
  if reconnectAttempts < maxReconnectAttempts then
    let a := reconnectAttempts + 1
    some (a, reconnectDelay * 2 ^ (a - 1))
  else none

/-- `this.reconnectAttempts = 0` in the legacy `onopen` handler
(chatService.ts line 32): the counter after any successful open. -/
def onOpenAttempts (_reconnectAttempts : Nat) : Nat := 0

end Legacy

namespace ChatService

/-! ### Map lemmas -/

theorem mapGet_set_eq (k : String) (v : Resolver) (m : ResolverMap) :
    mapGet k (mapSet k v m) = some v := by
  induction m with
  | nil => simp [mapGet, mapSet]
  | cons p rest ih =>
    by_cases h : p.1 = k
    · simp [mapGet, mapSet, h]
    · simpa [mapGet, mapSet, h] using ih

theorem mapGet_set_ne (k k' : String) (v : Resolver) (m : ResolverMap)
    (h : k ≠ k') : mapGet k (mapSet k' v m) = mapGet k m := by
  induction m with
  | nil => simp [mapGet, mapSet, Ne.symm h]
  | cons p rest ih =>
    by_cases hp : p.1 = k'
    · subst hp
      simp [mapGet, mapSet, Ne.symm h]
    · by_cases hk : p.1 = k
      · subst hk
        simp [mapGet, mapSet, hp]
      · simpa [mapGet, mapSet, hp, hk] using ih

theorem mapGet_del_eq (k : String) (m : ResolverMap) :
    mapGet k (mapDel k m) = none := by
  induction m with
  | nil => simp [mapGet, mapDel]
  | cons p rest ih =>
    by_cases h : p.1 = k
    · simpa [mapDel, h] using ih
    · simpa [mapDel, mapGet, h] using ih

theorem mapGet_del_ne (k k' : String) (m : ResolverMap) (h : k ≠ k') :
    mapGet k (mapDel k' m) = mapGet k m := by
  induction m with
  | nil => simp [mapGet, mapDel]
  | cons p rest ih =>
    by_cases hp : p.1 = k'
    · subst hp
      simpa [mapDel, mapGet, Ne.symm h] using ih
    · by_cases hk : p.1 = k
      · subst hk
        simp [mapDel, mapGet, hp]
      · simpa [mapDel, mapGet, hp, hk] using ih

theorem mapDel_set_fresh (k : String) (v : Resolver) (m : ResolverMap)
    (h : mapGet k m = none) : mapDel k (mapSet k v m) = m := by
  induction m with
  | nil => simp [mapSet, mapDel]
  | cons p rest ih =>
    have hp : ¬ p.1 = k := by
      intro he
      simp [mapGet, he] at h
    have hrest : mapGet k rest = none := by
      simpa [mapGet, hp] using h
    simpa [mapSet, mapDel, hp] using ih hrest

/-! ### Step lemmas for `handleServerMessage` -/

theorem chunk_step (rs : ResolverMap) (t c : String) (cid : Option Int)
    (r : Resolver) (hne : t ≠ "") (ht : mapGet t rs = some r) :
    handleServerMessage rs (some (chunkFrame t c cid)) =
      (mapSet t ⟨r.hasOnUpdate, some c, cid⟩ rs,
       if r.hasOnUpdate then [Event.update t c cid] else []) := by
  simp [handleServerMessage, chunkFrame, hne, ht]

theorem complete_step (rs : ResolverMap) (t : String) (u : Bool)
    (l : Option String) (d : Option Int) (ccid : Option Int)
    (hne : t ≠ "") (ht : mapGet t rs = some ⟨u, l, d⟩) :
    handleServerMessage rs (some (completeFrame t ccid)) =
      (mapDel t rs, [Event.resolveOk t (l.getD "") (jsOr d ccid)]) := by
  simp [handleServerMessage, completeFrame, hne, ht]

theorem runFrames_append (rs : ResolverMap) (xs ys : List (Option InFrame)) :
    runFrames rs (xs ++ ys) =
      ((runFrames (runFrames rs xs).1 ys).1,
       (runFrames rs xs).2 ++ (runFrames (runFrames rs xs).1 ys).2) := by
  induction xs generalizing rs with
  | nil => simp [runFrames]
  | cons x xs ih => simp [runFrames, ih]

theorem chunk_step_any (rs : ResolverMap) (f : InFrame) (t : String)
    (r : Resolver) (hrid : f.requestId = some t) (htype : f.type = "chunk")
    (hne : t ≠ "") (ht : mapGet t rs = some r) :
    handleServerMessage rs (some f) =
      (mapSet t { r with latest := f.content,
                         conversationId := f.conversationId } rs,
       if r.hasOnUpdate && f.content.isSome then
         [Event.update t (f.content.getD "") f.conversationId]
       else []) := by
  simp [handleServerMessage, hrid, hne, ht, htype]

theorem runChunks_last (t : String) (hne : t ≠ "")
    (ps : List (String × Option Int)) (c : String) (cid : Option Int) :
    ∀ rs u l d, mapGet t rs = some ⟨u, l, d⟩ →
      mapGet t (runFrames rs (chunksOf t (ps ++ [(c, cid)]))).1 =
        some ⟨u, some c, cid⟩ := by
  induction ps with
  | nil =>
    intro rs u l d ht
    simp only [List.nil_append, chunksOf, List.map_cons, List.map_nil]
    simp [runFrames, chunk_step rs t c cid ⟨u, l, d⟩ hne ht, mapGet_set_eq]
  | cons p rest ih =>
    intro rs u l d ht
    simp only [List.cons_append, chunksOf, List.map_cons] at ih ⊢
    simp only [runFrames]
    rw [chunk_step rs t p.1 p.2 ⟨u, l, d⟩ hne ht]
    exact ih (mapSet t ⟨u, some p.1, p.2⟩ rs) u (some p.1) p.2
      (mapGet_set_eq t _ rs)

theorem nonterminal_step (rs : ResolverMap) (t : String) (f : Option InFrame)
    (ht : (mapGet t rs).isSome = true) (hf : terminalFor t f = false) :
    ((mapGet t (handleServerMessage rs f).1).isSome = true) ∧
    (∀ e ∈ (handleServerMessage rs f).2, settlesFor t e = false) := by
  cases f with
  | none => exact ⟨ht, by simp [handleServerMessage]⟩
  | some g =>
    cases hrid : g.requestId with
    | none =>
      refine ⟨by simpa [handleServerMessage, hrid] using ht, ?_⟩
      simp [handleServerMessage, hrid]
    | some rid =>
      by_cases hempty : rid = ""
      · refine ⟨by simpa [handleServerMessage, hrid, hempty] using ht, ?_⟩
        simp [handleServerMessage, hrid, hempty]
      · cases hget : mapGet rid rs with
        | none =>
          refine ⟨by simpa [handleServerMessage, hrid, hempty, hget] using ht, ?_⟩
          simp [handleServerMessage, hrid, hempty, hget]
        | some r =>
          by_cases hc : g.type = "chunk"
          · rw [chunk_step_any rs g rid r hrid hc hempty hget]
            constructor
            · by_cases heq : t = rid
              · subst heq
                simp [mapGet_set_eq]
              · simpa [mapGet_set_ne t rid _ rs heq] using ht
            · intro e he
              by_cases hu : (r.hasOnUpdate && g.content.isSome) = true
              · simp [hu] at he
                subst he
                simp [settlesFor]
              · simp [hu] at he
          · by_cases hcm : g.type = "complete"
            · have hne : ¬ rid = t := by
                intro heq
                simp [terminalFor, hrid, heq, hcm] at hf
              constructor
              · simpa [handleServerMessage, hrid, hempty, hget, hc, hcm,
                  mapGet_del_ne t rid rs (Ne.symm hne)] using ht
              · intro e he
                simp [handleServerMessage, hrid, hempty, hget, hc, hcm] at he
                subst he
                simp [settlesFor, hne]
            · by_cases herr : g.type = "error"
              · have hne : ¬ rid = t := by
                  intro heq
                  simp [terminalFor, hrid, heq, herr] at hf
                constructor
                · simpa [handleServerMessage, hrid, hempty, hget, hc, hcm, herr,
                    mapGet_del_ne t rid rs (Ne.symm hne)] using ht
                · intro e he
                  simp [handleServerMessage, hrid, hempty, hget, hc, hcm, herr] at he
                  subst he
                  simp [settlesFor, hne]
              · refine ⟨by simpa [handleServerMessage, hrid, hempty, hget, hc,
                  hcm, herr] using ht, ?_⟩
                simp [handleServerMessage, hrid, hempty, hget, hc, hcm, herr]

/-! ### Claim theorems -/

/-- C3.  Reconnect backoff (legacy manager): starting from a fresh counter,
the Nth reconnection attempt (1 ≤ N ≤ cap, entered with counter N-1) is
scheduled after `reconnectDelay * 2 ^ (N - 1)` milliseconds; once the
counter reaches the cap no further attempt is scheduled; and the `onopen`
handler resets the counter to 0 on every successful open. -/
theorem C3_reconnect_backoff (N : Nat) (h1 : 1 ≤ N)
    (h2 : N ≤ Legacy.maxReconnectAttempts) :
    Legacy.attemptReconnect (N - 1) =
      some (N, Legacy.reconnectDelay * 2 ^ (N - 1)) ∧
    (∀ k, Legacy.maxReconnectAttempts ≤ k → Legacy.attemptReconnect k = none) ∧
    (∀ a, Legacy.onOpenAttempts a = 0) := by
  refine ⟨?_, ?_, fun a => rfl⟩
  · have hlt : N - 1 < Legacy.maxReconnectAttempts := by
      unfold Legacy.maxReconnectAttempts at h2 ⊢
      omega
    have hN : N - 1 + 1 = N := Nat.succ_pred_eq_of_pos h1
    simp [Legacy.attemptReconnect, hlt, hN]
  · intro k hk
    simp [Legacy.attemptReconnect, Nat.not_lt.mpr hk]

/-- C3 witness: the third attempt is scheduled after 4000 ms. -/
theorem C3_reconnect_backoff_witness :
    Legacy.attemptReconnect 2 = some (3, 4000) ∧
    Legacy.attemptReconnect 5 = none ∧
    Legacy.onOpenAttempts 4 = 0 := by
  have h := C3_reconnect_backoff 3 (by decide) (by decide)
  exact ⟨h.1, h.2.1 5 (by decide), h.2.2 4⟩

/-- C4.  `disconnect()` rejects every currently active exchange with the
`WebSocket disconnected` error and empties the active-exchange map, and a
second `disconnect()` immediately afterwards changes nothing and rejects
nothing. -/
theorem C4_disconnect_fails_all_pending (m : WSManager) :
    (disconnect m).2 =
      m.resolvers.map (fun p => Event.rejectErr p.1 "WebSocket disconnected") ∧
    (disconnect m).1.resolvers = [] ∧
    disconnect (disconnect m).1 = ((disconnect m).1, []) := by
  exact ⟨rfl, rfl, rfl⟩

/-- C5.  Idempotent connect: with the socket Open under the same token,
`connect(token)` returns immediately with the manager unchanged (so no
second transport connection is constructed); while a connect promise for
the same token is in flight, `connect(token)` shares that in-flight
outcome, again leaving the manager unchanged (exactly one handshake). -/
theorem C5_idempotent_connect (m : WSManager) (c : Conn) (t : String) :
    ((m.ws = some c ∧ c.readyState = ReadyState.OPEN ∧
      m.activeToken = some t) →
      connect m t = (m, ConnectResult.immediate)) ∧
    ((m.ws = some c ∧ c.readyState = ReadyState.CONNECTING ∧
      m.connectPromise = true ∧ m.activeToken = some t) →
      connect m t = (m, ConnectResult.sharedInFlight)) := by
  constructor
  · rintro ⟨hw, hs, ha⟩
    simp [connect, readyOpen, hw, hs, ha]
  · rintro ⟨hw, hs, hp, ha⟩
    simp [connect, readyOpen, hw, hs, hp, ha]

/-- C5 witness at concrete managers. -/
theorem C5_idempotent_connect_witness :
    connect mOpenW "tok" = (mOpenW, ConnectResult.immediate) ∧
    connect mInflightW "tok" = (mInflightW, ConnectResult.sharedInFlight) :=
  ⟨(C5_idempotent_connect mOpenW ⟨0, ReadyState.OPEN, "tok"⟩ "tok").1
      ⟨rfl, rfl, rfl⟩,
   (C5_idempotent_connect mInflightW ⟨1, ReadyState.CONNECTING, "tok"⟩ "tok").2
      ⟨rfl, rfl, rfl, rfl⟩⟩

/-- C6.  Evaluating `connect` at the failing input: with the connection
Open under credential `"a"`, `connect("b")` performs a new handshake but
never calls `close()` on the old socket — afterwards both socket 0 (still
Open) and the new socket 1 are live, so the old connection was not torn
down and two live connection objects coexist. -/
theorem C6_connect_credential_no_teardown :
    (connect mOpenA "b").2 = ConnectResult.handshake ∧
    (connect mOpenA "b").1.live = [0, 1] ∧
    (connect mOpenA "b").1.ws = some ⟨1, ReadyState.CONNECTING, "b"⟩ := by
  refine ⟨rfl, rfl, rfl⟩

/-- C8.  Unknown-token robustness: a frame whose token is absent from the
active map, a frame with no token, and a frame with an unrecognized type
discriminator all leave `handleServerMessage` without any state change or
callback (and the embedding is a total function, so no exception
escapes). -/
theorem C8_unknown_token_robust (rs : ResolverMap) (f : InFrame)
    (h : (∀ t, f.requestId = some t → mapGet t rs = none) ∨
         f.requestId = none ∨
         (f.type ≠ "chunk" ∧ f.type ≠ "complete" ∧ f.type ≠ "error")) :
    handleServerMessage rs (some f) = (rs, []) := by
  cases hrid : f.requestId with
  | none => simp [handleServerMessage, hrid]
  | some rid =>
    by_cases hempty : rid = ""
    · simp [handleServerMessage, hrid, hempty]
    · cases hget : mapGet rid rs with
      | none => simp [handleServerMessage, hrid, hempty, hget]
      | some r =>
        rcases h with h1 | h2 | h3
        · rw [h1 rid hrid] at hget
          exact absurd hget (by simp)
        · rw [hrid] at h2
          exact absurd h2 (by simp)
        · simp [handleServerMessage, hrid, hempty, hget, h3.1, h3.2.1, h3.2.2]

/-- C8 witness: an unknown token and an unrecognized discriminator. -/
theorem C8_unknown_token_robust_witness :
    handleServerMessage [("t1", ⟨true, none, none⟩)]
        (some ⟨some "ghost", "chunk", some "x", none, none⟩) =
      ([("t1", ⟨true, none, none⟩)], []) ∧
    handleServerMessage [("t1", ⟨true, none, none⟩)]
        (some ⟨some "t1", "ping", none, none, none⟩) =
      ([("t1", ⟨true, none, none⟩)], []) :=
  ⟨C8_unknown_token_robust _ _ (Or.inl (by intro t h; cases h; rfl)),
   C8_unknown_token_robust _ _ (Or.inr (Or.inr (by refine ⟨?_, ?_, ?_⟩ <;> decide)))⟩

/-- C9.  A `complete` frame arriving before any `chunk` for a registered
exchange resolves the promise successfully with the empty string as reply
(`latest` is still undefined, so `latest ?? ''` yields `''`) and the
conversation id taken from the `complete` frame, and removes the
exchange. -/
theorem C9_complete_before_chunk (rs : ResolverMap) (t : String)
    (u : Bool) (cid : Option Int)
    (hne : t ≠ "") (ht : mapGet t rs = some ⟨u, none, none⟩) :
    handleServerMessage rs (some (completeFrame t cid)) =
      (mapDel t rs, [Event.resolveOk t "" cid]) := by
  have h := complete_step rs t u none none cid hne ht
  simpa [jsOr] using h

/-- C9 witness at a concrete one-exchange map. -/
theorem C9_complete_before_chunk_witness :
    handleServerMessage [("t1", ⟨true, none, none⟩)]
        (some (completeFrame "t1" (some 42))) =
      ([], [Event.resolveOk "t1" "" (some 42)]) := by
  have h := C9_complete_before_chunk [("t1", ⟨true, none, none⟩)] "t1" true
      (some 42) (by decide) rfl
  simpa [mapDel] using h

/-- C10.  Send-failure atomicity: when `ws.send` throws inside
`sendMessage`, the entry just registered for the fresh request id is
deleted again — the map is exactly what it was before the call — and the
returned promise is rejected with the thrown error. -/
theorem C10_send_failure_atomic (rs : ResolverMap) (rid : String)
    (hU : Bool) (msg : String) (hfresh : mapGet rid rs = none) :
    (sendMessage rs rid hU false msg).1 = rs ∧
    (sendMessage rs rid hU false msg).2 = [Event.rejectErr rid msg] := by
  constructor
  · simpa [sendMessage] using mapDel_set_fresh rid ⟨hU, none, none⟩ rs hfresh
  · simp [sendMessage]

/-- C10 witness at a concrete map. -/
theorem C10_send_failure_atomic_witness :
    (sendMessage [("t1", ⟨true, none, none⟩)] "t2" false false "boom").1 =
      [("t1", ⟨true, none, none⟩)] ∧
    (sendMessage [("t1", ⟨true, none, none⟩)] "t2" false false "boom").2 =
      [Event.rejectErr "t2" "boom"] :=
  C10_send_failure_atomic [("t1", ⟨true, none, none⟩)] "t2" false "boom"
    (by decide)

/-- C1.  Token isolation: handling a `chunk` frame carrying token `t1`
emits callbacks addressed to `t1` only, and any other token `t2`'s entry
(in particular its `latest` content and `conversationId`) is exactly what
it was before. -/
theorem C1_token_isolation (rs : ResolverMap) (t1 t2 : String) (f : InFrame)
    (hne : t2 ≠ t1) (hrid : f.requestId = some t1) (htype : f.type = "chunk") :
    (∀ e ∈ (handleServerMessage rs (some f)).2, Event.token e = t1) ∧
    mapGet t2 (handleServerMessage rs (some f)).1 = mapGet t2 rs := by
  by_cases hempty : t1 = ""
  · simp [handleServerMessage, hrid, hempty]
  · cases hget : mapGet t1 rs with
    | none => simp [handleServerMessage, hrid, hempty, hget]
    | some r =>
      rw [chunk_step_any rs f t1 r hrid htype hempty hget]
      constructor
      · intro e he
        by_cases hu : (r.hasOnUpdate && f.content.isSome) = true
        · simp [hu] at he
          subst he
          simp [Event.token]
        · simp [hu] at he
      · exact mapGet_set_ne t2 t1 _ rs hne

/-- C1 witness: two concurrently active exchanges, chunk addressed to
`"t1"`. -/
theorem C1_token_isolation_witness :
    (∀ e ∈ (handleServerMessage
        [("t1", ⟨true, none, none⟩), ("t2", ⟨true, some "keep", some 9⟩)]
        (some (chunkFrame "t1" "Hi" none))).2, Event.token e = "t1") ∧
    mapGet "t2" (handleServerMessage
        [("t1", ⟨true, none, none⟩), ("t2", ⟨true, some "keep", some 9⟩)]
        (some (chunkFrame "t1" "Hi" none))).1 =
      mapGet "t2" [("t1", ⟨true, none, none⟩), ("t2", ⟨true, some "keep", some 9⟩)] :=
  C1_token_isolation
    [("t1", ⟨true, none, none⟩), ("t2", ⟨true, some "keep", some 9⟩)]
    "t1" "t2" (chunkFrame "t1" "Hi" none) (by decide) rfl rfl

/-- C2.  Cumulative content: every `chunk` frame overwrites `latest` with
exactly the frame's content (regardless of the previous value), and after
a nonempty chunk sequence followed by `complete` the exchange resolves
with exactly the last chunk's content (no concatenation) and the recorded
conversation id (the last chunk's, falling back to the `complete`
frame's), and its entry is removed from the active map. -/
theorem C2_cumulative_content (rs : ResolverMap) (t : String) (u : Bool)
    (l : Option String) (d : Option Int)
    (cs : List (String × Option Int)) (clast : String)
    (cidlast ccid : Option Int)
    (hne : t ≠ "") (ht : mapGet t rs = some ⟨u, l, d⟩) :
    (∀ rs' r' c cid, mapGet t rs' = some r' →
        mapGet t (handleServerMessage rs' (some (chunkFrame t c cid))).1 =
          some ⟨r'.hasOnUpdate, some c, cid⟩) ∧
    Event.resolveOk t clast (jsOr cidlast ccid) ∈
      (runFrames rs (chunksOf t (cs ++ [(clast, cidlast)]) ++
        [some (completeFrame t ccid)])).2 ∧
    mapGet t (runFrames rs (chunksOf t (cs ++ [(clast, cidlast)]) ++
        [some (completeFrame t ccid)])).1 = none := by
  have h1 : mapGet t (runFrames rs (chunksOf t (cs ++ [(clast, cidlast)]))).1 =
      some ⟨u, some clast, cidlast⟩ :=
    runChunks_last t hne cs clast cidlast rs u l d ht
  have h2 : runFrames (runFrames rs (chunksOf t (cs ++ [(clast, cidlast)]))).1
      [some (completeFrame t ccid)] =
      (mapDel t (runFrames rs (chunksOf t (cs ++ [(clast, cidlast)]))).1,
       [Event.resolveOk t clast (jsOr cidlast ccid)]) := by
    simp [runFrames, complete_step _ t u (some clast) cidlast ccid hne h1]
  refine ⟨?_, ?_, ?_⟩
  · intro rs' r' c cid ht'
    rw [chunk_step rs' t c cid r' hne ht']
    simp [mapGet_set_eq]
  · rw [runFrames_append, h2]
    simp
  · rw [runFrames_append, h2]
    exact mapGet_del_eq t _

/-- C2 witness: the spec's example sequence
`["Hi", "Hi there", "Hi there!"]` then `complete`. -/
theorem C2_cumulative_content_witness :
    Event.resolveOk "t" "Hi there!" (jsOr (some 7) (some 7)) ∈
      (runFrames [("t", ⟨true, none, none⟩)]
        (chunksOf "t" ([("Hi", none), ("Hi there", none)] ++
          [("Hi there!", some 7)]) ++
          [some (completeFrame "t" (some 7))])).2 ∧
    mapGet "t" (runFrames [("t", ⟨true, none, none⟩)]
        (chunksOf "t" ([("Hi", none), ("Hi there", none)] ++
          [("Hi there!", some 7)]) ++
          [some (completeFrame "t" (some 7))])).1 = none :=
  (C2_cumulative_content [("t", ⟨true, none, none⟩)] "t" true none none
      [("Hi", none), ("Hi there", none)] "Hi there!" (some 7) (some 7)
      (by decide) (by decide)).2

/-- C7.  No timeout mechanism: an exchange registered in the active map
survives any sequence of inbound messages containing no terminal
(`complete`/`error`) frame for its token — it is still active afterwards
and no emitted event settles its promise.  The current manager therefore
never rejects a silently-dropped exchange with a `Timeout` error: its
promise pends until a terminal frame, a send failure, or a disconnect. -/
theorem C7_no_timeout_exchange_pends (rs : ResolverMap) (t : String)
    (msgs : List (Option InFrame))
    (ht : (mapGet t rs).isSome = true)
    (hno : ∀ f ∈ msgs, terminalFor t f = false) :
    ((mapGet t (runFrames rs msgs).1).isSome = true) ∧
    (∀ e ∈ (runFrames rs msgs).2, settlesFor t e = false) := by
  induction msgs generalizing rs with
  | nil => exact ⟨ht, by simp [runFrames]⟩
  | cons m rest ih =>
    have hm := nonterminal_step rs t m ht (hno m (by simp))
    have hrest := ih (handleServerMessage rs m).1 hm.1
      (fun f hf => hno f (by simp [hf]))
    refine ⟨?_, ?_⟩
    · simpa [runFrames] using hrest.1
    · intro e he
      simp only [runFrames, List.mem_append] at he
      rcases he with he | he
      · exact hm.2 e he
      · exact hrest.2 e he

/-- C7 witness: a chunk for the exchange itself, a complete for another
token, and an unparsable message settle nothing for token `"t"`, which
stays active. -/
theorem C7_no_timeout_exchange_pends_witness :
    ((mapGet "t" (runFrames [("t", ⟨false, none, none⟩)]
        [some (chunkFrame "t" "Hi" none), some (completeFrame "u" (some 1)),
         none]).1).isSome = true) ∧
    (∀ e ∈ (runFrames [("t", ⟨false, none, none⟩)]
        [some (chunkFrame "t" "Hi" none), some (completeFrame "u" (some 1)),
         none]).2, settlesFor "t" e = false) :=
  C7_no_timeout_exchange_pends [("t", ⟨false, none, none⟩)] "t"
    [some (chunkFrame "t" "Hi" none), some (completeFrame "u" (some 1)), none]
    (by decide) (by decide)

end ChatService
